import Mathlib

/-!
Verification development for the `book-alchemy` library-catalog application
(`src/app.py`, `src/data_models.py`).

The Python source is shallowly embedded:

* strings are modelled by Lean `String` (the inputs of interest are ASCII;
  Python's `str.strip` / `str.lower` / `str.isdigit` are embedded as
  `pyStrip` / `pyLower` / `pyIsdigit` below);
* Python `int` is `Int`; SQLAlchemy `Date` columns are a `Date` record with
  value equality, ordered lexicographically (as Python `datetime.date` is);
* the SQLAlchemy session/database is an explicit `DB` record (a list of
  authors and a list of books); a request handler is a pure function from a
  `DB` and the raw form fields to the new `DB` paired with a `Resp`;
* a commit that unexpectedly fails at the storage layer is modelled by an
  explicit failure-injection argument; the handler's `except` clause rolls
  back the in-flight transaction, i.e. returns the state as of the last
  successful commit.
-/

deriving instance DecidableEq for Except

/-- The characters Python's `str.strip()` removes from ASCII strings. -/
def isSpaceChar (c : Char) : Bool :=
  c = ' ' ∨ c = '\t' ∨ c = '\n' ∨ c = '\x0d' ∨ c = '\x0b' ∨ c = '\x0c'

/-- Python `str.strip()` on ASCII strings: drop leading and trailing
whitespace. -/
def pyStrip (s : String) : String :=
  String.mk (((s.data.dropWhile isSpaceChar).reverse.dropWhile isSpaceChar).reverse)

/-- Lower-case an ASCII character, as Python `str.lower()` does. -/
def lowerChar (c : Char) : Char :=
  if 'A' ≤ c ∧ c ≤ 'Z' then Char.ofNat (c.toNat + 32) else c

/-- Python `str.lower()` on ASCII strings. -/
def pyLower (s : String) : String := String.mk (s.data.map lowerChar)

/-- Numeric value of an ASCII decimal digit character. -/
def dval (c : Char) : Nat := c.toNat - 48

/-- Value of a list of ASCII decimal digits, most significant first
(the value `int(s)` gives a digit-only Python string `s`). -/
def digitsToNat (l : List Char) : Nat := l.foldl (fun a c => a * 10 + dval c) 0

/-- Python `str.isdigit()` restricted to ASCII strings: non-empty and
decimal digits only. -/
def pyIsdigit (s : String) : Bool := s.data ≠ [] && s.data.all Char.isDigit

/-- Python `int(s)` on a string that passed `pyIsdigit` (no sign, digits only). -/
def digitStrToInt (s : String) : Int := (digitsToNat s.data : Int)

/-- A calendar date as produced by Python's `datetime.date`. -/
structure Date where
  year : Nat
  month : Nat
  day : Nat
deriving DecidableEq, Repr

/-- Python `date` comparison `<` (lexicographic on year, month, day). -/
def dateLt (a b : Date) : Bool :=
  a.year < b.year ∨ (a.year = b.year ∧ (a.month < b.month ∨ (a.month = b.month ∧ a.day < b.day)))

/-- Gregorian leap-year rule used by Python's `datetime`. -/
def isLeap (y : Nat) : Bool := y % 4 = 0 && (y % 100 != 0 || y % 400 = 0)

/-- Number of days in a month, as validated by Python's `datetime.date`. -/
def daysInMonth (y m : Nat) : Nat :=
  if m = 2 then (if isLeap y then 29 else 28)
  else if m = 4 ∨ m = 6 ∨ m = 9 ∨ m = 11 then 30
  else 31

/-!
`datetime.strptime(value, "%Y-%m-%d")` in CPython compiles the format to the
regular expression `(?P<Y>\d\d\d\d)\-(?P<m>1[0-2]|0[1-9]|[1-9])\-(?P<d>3[01]|[12]\d|0[1-9]|[1-9])`
(see `Lib/_strptime.py`), applies it with `re.match` (a prefix match,
alternatives tried left to right with backtracking), raises `ValueError` if no
match or if characters remain after the match, and finally constructs
`datetime(year, month, day)`, which raises `ValueError` when `year` is below
`MINYEAR = 1` or `day` exceeds the length of the month.  The embedding below
reproduces exactly that pipeline: each character class on a digit position is
rendered as `isDigit` plus the matching constraint on the digit's value (the
class `[0-2]` is the digit characters of value at most 2, the literal `1` is
the digit character of value 1, and so on).
-/

/-- The `%m` alternatives `1[0-2] | 0[1-9] | [1-9]`, in the engine's order;
each candidate is the parsed month value paired with the unconsumed rest. -/
def monthCands (l : List Char) : List (Nat × List Char) :=
  (match l with
   | c1 :: c2 :: r =>
     if c1.isDigit ∧ dval c1 = 1 ∧ c2.isDigit ∧ dval c2 ≤ 2 then [(10 + dval c2, r)] else []
   | _ => []) ++
  (match l with
   | c1 :: c2 :: r =>
     if c1.isDigit ∧ dval c1 = 0 ∧ c2.isDigit ∧ 1 ≤ dval c2 then [(dval c2, r)] else []
   | _ => []) ++
  (match l with
   | c1 :: r =>
     if c1.isDigit ∧ 1 ≤ dval c1 then [(dval c1, r)] else []
   | _ => [])

/-- The `%d` alternatives `3[01] | [12]\d | 0[1-9] | [1-9]`, in the
engine's order. -/
def dayCands (l : List Char) : List (Nat × List Char) :=
  (match l with
   | c1 :: c2 :: r =>
     if c1.isDigit ∧ dval c1 = 3 ∧ c2.isDigit ∧ dval c2 ≤ 1 then [(30 + dval c2, r)] else []
   | _ => []) ++
  (match l with
   | c1 :: c2 :: r =>
     if c1.isDigit ∧ 1 ≤ dval c1 ∧ dval c1 ≤ 2 ∧ c2.isDigit then
       [(10 * dval c1 + dval c2, r)] else []
   | _ => []) ++
  (match l with
   | c1 :: c2 :: r =>
     if c1.isDigit ∧ dval c1 = 0 ∧ c2.isDigit ∧ 1 ≤ dval c2 then [(dval c2, r)] else []
   | _ => []) ++
  (match l with
   | c1 :: r =>
     if c1.isDigit ∧ 1 ≤ dval c1 then [(dval c1, r)] else []
   | _ => [])

/-- `%Y`: exactly four decimal digits. -/
def takeYear : List Char → Option (Nat × List Char)
  | a :: b :: c :: d :: r =>
    if a.isDigit ∧ b.isDigit ∧ c.isDigit ∧ d.isDigit then
      some (digitsToNat [a, b, c, d], r)
    else none
  | _ => none

/-- The prefix match of the compiled `%Y-%m-%d` pattern: year, dash, the first
month alternative under which the rest of the pattern succeeds (regex
backtracking), dash, the first day alternative that matches (nothing follows
the day in the pattern, so later day alternatives are never tried).  Returns
the captured values and the unconsumed suffix. -/
def regexYMD (l : List Char) : Option (Nat × Nat × Nat × List Char) :=
  match takeYear l with
  | none => none
  | some (y, r1) =>
    match r1 with
    | '-' :: r2 =>
      (monthCands r2).findSome? (fun mc =>
        match mc.2 with
        | '-' :: r4 =>
          match (dayCands r4).head? with
          | some dc => some (y, mc.1, dc.1, dc.2)
          | none => none
        | _ => none)
    | _ => none

/-- Full `strptime(value, "%Y-%m-%d").date()`: the regex must match with no
characters left over, and `datetime(y, m, d)` must accept the values
(`1 ≤ y`; `1 ≤ d ≤ daysInMonth`; the month is in `1..12` by construction). -/
def strptimeYMD (l : List Char) : Option Date :=
  match regexYMD l with
  | some (y, m, d, rest) =>
    if rest.isEmpty then
      if 1 ≤ y ∧ 1 ≤ d ∧ d ≤ daysInMonth y m then some ⟨y, m, d⟩ else none
    else none
  | none => none

/-- `parse_date` (src/app.py lines 30-41): strip; empty means `None`;
otherwise `strptime "%Y-%m-%d"`, any `ValueError` becoming
`BadRequest("Invalid date format. Use YYYY-MM-DD.")`. -/
def parse_date (s : String) : Except String (Option Date) :=
  let v := pyStrip s
  if v = "" then .ok none
  else
    match strptimeYMD v.data with
    | some d => .ok (some d)
    | none => .error "Invalid date format. Use YYYY-MM-DD."

/-- `validate_author_payload` (src/app.py lines 44-61). -/
def validate_author_payload (nameRaw birthRaw deathRaw : String) :
    Except String (String × Option Date × Option Date) :=
  let name := pyStrip nameRaw
  if name = "" then .error "Author name cannot be empty."
  else
    match parse_date birthRaw with
    | .error e => .error e
    | .ok birth =>
      match parse_date deathRaw with
      | .error e => .error e
      | .ok death =>
        match birth, death with
        | some b, some d =>
          if dateLt d b then .error "Date of death cannot be earlier than birth date."
          else .ok (name, some b, some d)
        | _, _ => .ok (name, birth, death)

/-- `validate_book_payload` (src/app.py lines 64-89); `currentYear` stands for
`datetime.now().year` at the time of the request. -/
def validate_book_payload (titleRaw yearRaw authorIdRaw : String) (currentYear : Int) :
    Except String (String × Int × Int) :=
  let title := pyStrip titleRaw
  if title = "" then .error "Book title cannot be empty."
  else
    let ys := pyStrip yearRaw
    if ¬ pyIsdigit ys then .error "Publication year must be a number."
    else
      let publication_year := digitStrToInt ys
      if publication_year < 0 ∨ publication_year > currentYear + 1 then
        .error "Publication year seems invalid."
      else
        let as' := pyStrip authorIdRaw
        if ¬ pyIsdigit as' then .error "author_id must be a valid integer."
        else .ok (title, publication_year, digitStrToInt as')

example : parse_date "  " = .ok none := by decide
example : parse_date "2020-01-03" = .ok (some ⟨2020, 1, 3⟩) := by decide
example : parse_date "2020-1-3" = .ok (some ⟨2020, 1, 3⟩) := by decide
example : parse_date "2020-13-03" = .error "Invalid date format. Use YYYY-MM-DD." := by decide
example : parse_date "2020-02-30" = .error "Invalid date format. Use YYYY-MM-DD." := by decide
example : parse_date "2020-02-29" = .ok (some ⟨2020, 2, 29⟩) := by decide
example : parse_date "1900-02-29" = .error "Invalid date format. Use YYYY-MM-DD." := by decide
example : parse_date "2020-01-031" = .error "Invalid date format. Use YYYY-MM-DD." := by decide
example : parse_date "0000-01-01" = .error "Invalid date format. Use YYYY-MM-DD." := by decide
example : validate_book_payload "T" "2026" "3" 2025 = .ok ("T", 2026, 3) := by decide
example : validate_book_payload "T" "2027" "3" 2025 = .error "Publication year seems invalid." := by decide
example : validate_book_payload "T" "abcd" "3" 2025 = .error "Publication year must be a number." := by decide
example : validate_book_payload "T" "-5" "3" 2025 = .error "Publication year must be a number." := by decide

/-- `Author` (src/data_models.py lines 7-30): integer primary key, required
name, two optional dates.  The `books` relationship is represented by the
`author_id` field of `Book`. -/
structure Author where
  id : Int
  name : String
  birth_date : Option Date
  date_of_death : Option Date
deriving DecidableEq, Repr

/-- `Book` (src/data_models.py lines 33-56): integer primary key, optional
isbn, required title, required integer publication year, required foreign key
`author_id` with `ondelete="CASCADE"`. -/
structure Book where
  id : Int
  isbn : Option String
  title : String
  publication_year : Int
  author_id : Int
deriving DecidableEq, Repr

/-- The persisted state: the two tables. -/
structure DB where
  authors : List Author
  books : List Book
deriving DecidableEq, Repr

/-- The observable outcome of a request: a flash+redirect success, a
flash+re-render validation failure (`BadRequest` caught by the handler), a
404 (`NotFound`), or a 500 (`InternalServerError` after rollback). -/
inductive Resp where
  | success (msg : String)
  | errorFlash (msg : String)
  | notFound (msg : String)
  | internalError (msg : String)
deriving DecidableEq, Repr

/-- Whether a response is the success/redirect outcome. -/
def Resp.isSuccess : Resp → Bool
  | .success _ => true
  | _ => false

/-- A fresh autoincrement id, one past the largest id in use. -/
def freshId (ids : List Int) : Int := ids.foldl max 0 + 1

/-- Next autoincrement id of the `author` table. -/
def freshAuthorId (db : DB) : Int := freshId (db.authors.map (fun a => a.id))

/-- Next autoincrement id of the `book` table. -/
def freshBookId (db : DB) : Int := freshId (db.books.map (fun b => b.id))

/-- `POST /add_author` (src/app.py lines 153-190): validate, run the
case-insensitive duplicate check (same lowered name and the literal condition
`a.birth_date == birth_date or (a.birth_date is None and birth_date is None)`),
then insert and commit.  `commitFails` injects an unexpected storage failure
at the commit; the handler's `except` clause rolls the transaction back. -/
def add_author (db : DB) (nameRaw birthRaw deathRaw : String) (commitFails : Bool) :
    DB × Resp :=
  match validate_author_payload nameRaw birthRaw deathRaw with
  | .error m => (db, .errorFlash m)
  | .ok (name, birth_date, death_date) =>
    if (db.authors.filter (fun a => pyLower a.name = pyLower name)).any
        (fun a => a.birth_date = birth_date ∨ (a.birth_date = none ∧ birth_date = none)) then
      (db, .errorFlash "Author already exists.")
    else if commitFails then (db, .internalError "Database error while adding author.")
    else
      ({ db with
          authors := db.authors ++
            [{ id := freshAuthorId db, name := name, birth_date := birth_date,
               date_of_death := death_date }] },
       .success "Author added successfully.")

/-- `POST /add_book` (src/app.py lines 193-236): validate, check the selected
author exists (`Author.query.get`), global case-insensitive duplicate-title
check, trim the optional isbn to `none` if empty, insert and commit. -/
def add_book (db : DB) (titleRaw yearRaw authorIdRaw isbnRaw : String)
    (currentYear : Int) (commitFails : Bool) : DB × Resp :=
  match validate_book_payload titleRaw yearRaw authorIdRaw currentYear with
  | .error m => (db, .errorFlash m)
  | .ok (title, publication_year, author_id) =>
    match db.authors.find? (fun a => a.id = author_id) with
    | none => (db, .errorFlash "Selected author does not exist.")
    | some _ =>
      if db.books.any (fun b => pyLower b.title = pyLower title) then
        (db, .errorFlash "A book with this title already exists.")
      else if commitFails then (db, .internalError "Database error while adding book.")
      else
        ({ db with
            books := db.books ++
              [{ id := freshBookId db,
                 isbn := if pyStrip isbnRaw = "" then none else some (pyStrip isbnRaw),
                 title := title, publication_year := publication_year,
                 author_id := author_id }] },
         .success "Book added successfully.")

/-- `POST /update/<book_id>` (src/app.py lines 239-287): 404 if the book is
missing; validate; author-existence check; duplicate-title check only when the
new title differs case-insensitively from the current one; apply the four
mutable fields and commit. -/
def update (db : DB) (book_id : Int) (titleRaw yearRaw authorIdRaw isbnRaw : String)
    (currentYear : Int) (commitFails : Bool) : DB × Resp :=
  match db.books.find? (fun b => b.id = book_id) with
  | none => (db, .notFound "Book not found.")
  | some book =>
    match validate_book_payload titleRaw yearRaw authorIdRaw currentYear with
    | .error m => (db, .errorFlash m)
    | .ok (title, publication_year, author_id) =>
      match db.authors.find? (fun a => a.id = author_id) with
      | none => (db, .errorFlash "Selected author does not exist.")
      | some _ =>
        if pyLower title ≠ pyLower book.title ∧
            db.books.any (fun b => pyLower b.title = pyLower title) then
          (db, .errorFlash "A book with this title already exists.")
        else if commitFails then (db, .internalError "Database error while updating book.")
        else
          ({ db with
              books := db.books.map (fun b =>
                if b.id = book_id then
                  { b with
                      title := title
                      publication_year := publication_year
                      author_id := author_id
                      isbn := if pyStrip isbnRaw = "" then none else some (pyStrip isbnRaw) }
                else b) },
           .success "Book updated successfully.")

/-- `POST /book/<book_id>/delete` (src/app.py lines 290-315): 404 if the book
is missing; capture the owning author (`book.author`, the row referenced by
`author_id`); delete the book and commit; if the captured author now owns no
books, delete the author in a second commit.  `failAt = some k` injects an
unexpected storage failure at the k-th commit of the request; the `except`
clause rolls back the in-flight transaction, leaving the state as of the last
successful commit. -/
def delete_book (db : DB) (book_id : Int) (failAt : Option Nat) : DB × Resp :=
  match db.books.find? (fun b => b.id = book_id) with
  | none => (db, .notFound "Book not found.")
  | some book =>
    if failAt = some 1 then (db, .internalError "Database error while deleting book.")
    else
      match db.authors.find? (fun a => a.id = book.author_id) with
      | some a =>
        if ((db.books.filter (fun b => ¬ (b.id = book_id))).filter
            (fun b => b.author_id = a.id)).isEmpty then
          if failAt = some 2 then
            ({ db with books := db.books.filter (fun b => ¬ (b.id = book_id)) },
             .internalError "Database error while deleting book.")
          else
            ({ authors := db.authors.filter (fun x => ¬ (x.id = a.id)),
               books := db.books.filter (fun b => ¬ (b.id = book_id)) },
             .success "Book deleted successfully.")
        else
          ({ db with books := db.books.filter (fun b => ¬ (b.id = book_id)) },
           .success "Book deleted successfully.")
      | none =>
        ({ db with books := db.books.filter (fun b => ¬ (b.id = book_id)) },
         .success "Book deleted successfully.")

/-- Modelled from the spec: the `POST /author/<author_id>/delete` handler
belongs to the earlier application version, which is not under src/; only the
cascade declaration survives there (src/data_models.py: the `Author.books`
relationship with `cascade="all, delete-orphan", passive_deletes=True` and the
`Book.author_id` foreign key with `ondelete="CASCADE"`).  Per the spec it looks
the author up (404 if absent) and deletes the row; the declared cascade removes
every book whose `author_id` references it, in the same transaction. -/
def delete_author (db : DB) (author_id : Int) : DB × Resp :=
  match db.authors.find? (fun a => a.id = author_id) with
  | none => (db, .notFound "Author not found.")
  | some a =>
    ({ authors := db.authors.filter (fun x => ¬ (x.id = author_id)),
       books := db.books.filter (fun b => ¬ (b.author_id = author_id)) },
     .success ("Deleted author '" ++ a.name ++ "' and all their books."))

/-- The ordering column of the listing query. -/
inductive OrderCol where
  | bookTitle
  | bookYear
  | authorName
  | bookId
deriving DecidableEq, Repr

/-- The sort-column selection of `home` (src/app.py lines 122, 133-141):
`sort = (request.args.get("sort") or "").lower()`, then the if-chain mapping
`"title"`, `"year"` or `"publication_year"`, and `"author"`; everything else
falls through to the stable default, `Book.id`. -/
def homeOrderCol (sortRaw : Option String) : OrderCol :=
  let sort := pyLower (sortRaw.getD "")
  if sort = "title" then .bookTitle
  else if sort = "year" ∨ sort = "publication_year" then .bookYear
  else if sort = "author" then .authorName
  else .bookId

/-- The direction selection of `home` (src/app.py lines 123, 143-146):
`direction = (request.args.get("direction") or "asc").lower()`, descending
exactly when that equals `"desc"`. -/
def homeDescending (directionRaw : Option String) : Bool :=
  pyLower (directionRaw.getD "asc") = "desc"

/-- Python `int(s)` as used on the rating form field: strip whitespace, an
optional single sign, then at least one decimal digit; anything else raises
`ValueError` (`none`). -/
def pyInt (s : String) : Option Int :=
  match (pyStrip s).data with
  | '-' :: rest =>
    if rest ≠ [] ∧ rest.all Char.isDigit then some (-(digitsToNat rest : Int)) else none
  | '+' :: rest =>
    if rest ≠ [] ∧ rest.all Char.isDigit then some ((digitsToNat rest : Int)) else none
  | l => if l ≠ [] ∧ l.all Char.isDigit then some ((digitsToNat l : Int)) else none

/-- Modelled from the spec: the unified Book schema of the spec additionally
carries the earlier version's `rating` column ("optional integer in the
inclusive range 1-10 ... absent until explicitly set"); that earlier model
file is not under src/. -/
structure RBook where
  id : Int
  title : String
  rating : Option Int
deriving DecidableEq, Repr

/-- Modelled from the spec: a freshly created book of the unified schema has
no rating ("absent until explicitly set"). -/
def newRBook (id : Int) (title : String) : RBook :=
  { id := id, title := title, rating := none }

/-- Modelled from the spec: the `POST /book/<book_id>/rate` handler of the
earlier version, which is not under src/.  Looks the book up (404 if absent);
parses the `rating` form field as an integer; any parse failure or a value
outside 1..10 flashes "Rating must be an integer between 1 and 10." and
redirects back without mutating state; otherwise stores the rating and
commits. -/
def rate_book (books : List RBook) (book_id : Int) (ratingRaw : String) :
    List RBook × Resp :=
  match books.find? (fun b => b.id = book_id) with
  | none => (books, .notFound "Book not found.")
  | some b =>
    match pyInt ratingRaw with
    | none => (books, .errorFlash "Rating must be an integer between 1 and 10.")
    | some r =>
      if r < 1 ∨ r > 10 then
        (books, .errorFlash "Rating must be an integer between 1 and 10.")
      else
        (books.map (fun x => if x.id = book_id then { x with rating := some r } else x),
         .success ("Saved rating " ++ toString r ++ " for '" ++ b.title ++ "'."))

/-! ### Concrete fixtures used by witnesses and counterexamples -/

/-- An author with no birth date. -/
def tolkien : Author := { id := 1, name := "Tolkien", birth_date := none, date_of_death := none }

/-- A second author. -/
def herbert : Author := { id := 2, name := "Herbert", birth_date := none, date_of_death := none }

/-- A book owned by author 1. -/
def dune : Book := { id := 1, isbn := none, title := "Dune", publication_year := 1965, author_id := 1 }

/-- A second book owned by author 1. -/
def duneMessiah : Book :=
  { id := 2, isbn := none, title := "Dune Messiah", publication_year := 1969, author_id := 1 }

/-- The only book owned by author 2. -/
def childrenOfDune : Book :=
  { id := 3, isbn := none, title := "Children of Dune", publication_year := 1976, author_id := 2 }

/-- One author owning exactly one book. -/
def exDB1 : DB := { authors := [tolkien], books := [dune] }

/-- Author 1 owns books 1 and 2; author 2 owns only book 3. -/
def exDB3 : DB := { authors := [tolkien, herbert], books := [dune, duneMessiah, childrenOfDune] }

/-! ### C1 -/

/-- C1 counterexample: the claim says a delete-book request that fails at any
point leaves both the Book and its owning Author present.  On `exDB1` (author 1
owning exactly book 1), a storage failure at the second commit (the
orphan-cleanup commit) produces a failed request after which the Book is gone
while the Author remains: the first commit had already persisted. -/
theorem c1_counterexample :
    (delete_book exDB1 1 (some 2)).2 = .internalError "Database error while deleting book." ∧
    (delete_book exDB1 1 (some 2)).1.books.find? (fun b => b.id = 1) = none ∧
    (delete_book exDB1 1 (some 2)).1.authors = [tolkien] := by
  decide

/-- C1 amended: every failed add-author, add-book or update-book request
leaves the persisted state exactly as before; a failed delete-book request
leaves either the untouched state (failure before or at the first commit) or
the state with exactly the target book removed and all authors intact
(failure during the orphan-cleanup commit, after the book-deletion commit
persisted); no other partial write is ever observable. -/
theorem c1_amended (db : DB)
    (nameRaw birthRaw deathRaw titleRaw yearRaw authorIdRaw isbnRaw : String)
    (currentYear : Int) (cf : Bool) (book_id : Int) (failAt : Option Nat) :
    ((add_author db nameRaw birthRaw deathRaw cf).2.isSuccess = true ∨
      (add_author db nameRaw birthRaw deathRaw cf).1 = db) ∧
    ((add_book db titleRaw yearRaw authorIdRaw isbnRaw currentYear cf).2.isSuccess = true ∨
      (add_book db titleRaw yearRaw authorIdRaw isbnRaw currentYear cf).1 = db) ∧
    ((update db book_id titleRaw yearRaw authorIdRaw isbnRaw currentYear cf).2.isSuccess = true ∨
      (update db book_id titleRaw yearRaw authorIdRaw isbnRaw currentYear cf).1 = db) ∧
    ((delete_book db book_id failAt).2.isSuccess = true ∨
      (delete_book db book_id failAt).1 = db ∨
      ((delete_book db book_id failAt).1.authors = db.authors ∧
        (delete_book db book_id failAt).1.books =
          db.books.filter (fun b => ¬ (b.id = book_id)))) := by
  refine ⟨?_, ?_, ?_, ?_⟩
  · simp only [add_author]
    split
    · exact Or.inr rfl
    · split
      · exact Or.inr rfl
      · split
        · exact Or.inr rfl
        · exact Or.inl rfl
  · simp only [add_book]
    split
    · exact Or.inr rfl
    · split
      · exact Or.inr rfl
      · split
        · exact Or.inr rfl
        · split
          · exact Or.inr rfl
          · exact Or.inl rfl
  · simp only [update]
    split
    · exact Or.inr rfl
    · split
      · exact Or.inr rfl
      · split
        · exact Or.inr rfl
        · split
          · exact Or.inr rfl
          · split
            · exact Or.inr rfl
            · exact Or.inl rfl
  · simp only [delete_book]
    split
    · exact Or.inr (Or.inl rfl)
    · split
      · exact Or.inr (Or.inl rfl)
      · split
        · split
          · split
            · exact Or.inr (Or.inr ⟨rfl, rfl⟩)
            · exact Or.inl rfl
          · exact Or.inl rfl
        · exact Or.inl rfl

/-! ### C9 -/

/-- C9 counterexample: the claim maps every sort value other than `title`,
`year`, `author` to Book id, and applies descending order only when the
direction is exactly the string `desc`.  The code also maps
`publication_year` to the year column, and lowercases the direction first, so
`DESC` sorts descending. -/
theorem c9_counterexample :
    homeOrderCol (some "publication_year") = OrderCol.bookYear ∧
    OrderCol.bookYear ≠ OrderCol.bookId ∧
    "publication_year" ≠ "title" ∧ "publication_year" ≠ "year" ∧
    "publication_year" ≠ "author" ∧
    homeDescending (some "DESC") = true ∧ "DESC" ≠ "desc" := by
  decide

/-- The amended sort-column mapping: the raw value is lowercased first, and
`publication_year` is a second alias for the year column (written with the
checks in a different order than the code's if-chain). -/
def specHomeOrderCol (sortRaw : Option String) : OrderCol :=
  let sort := pyLower (sortRaw.getD "")
  if sort = "author" then .authorName
  else if sort = "publication_year" then .bookYear
  else if sort = "year" then .bookYear
  else if sort = "title" then .bookTitle
  else .bookId

/-- C9 amended: after lowercasing the raw sort value, `title` maps to the
Book title column, `year` and also `publication_year` map to the publication
year column, `author` maps to the Author name column, and anything else maps
to Book id; the order is descending exactly when the lowercased direction
parameter (defaulting to `asc`) equals `desc`. -/
theorem c9_amended (sortRaw directionRaw : Option String) :
    homeOrderCol sortRaw = specHomeOrderCol sortRaw ∧
    (homeDescending directionRaw = true ↔ pyLower (directionRaw.getD "asc") = "desc") := by
  constructor
  · simp only [homeOrderCol, specHomeOrderCol]
    split_ifs <;> simp_all
  · simp only [homeDescending]
    exact decide_eq_true_iff

/-! ### C6 and C10 -/

/-- A Python digit-only string parses to a non-negative integer. -/
theorem digitStrToInt_nonneg (s : String) : 0 ≤ digitStrToInt s :=
  Int.natCast_nonneg _

/-- C6: with a non-empty title, `validate_book_payload` rejects a trimmed
publication-year string that is not digits-only with "Publication year must
be a number."; a digits-only string is rejected with "Publication year seems
invalid." exactly when its value is negative or exceeds `currentYear + 1`;
and an in-range digits-only year together with a digits-only author id
validates successfully. -/
theorem c6_publication_year_validation (titleRaw yearRaw authorIdRaw : String)
    (currentYear : Int) (htitle : pyStrip titleRaw ≠ "") :
    (pyIsdigit (pyStrip yearRaw) = false →
      validate_book_payload titleRaw yearRaw authorIdRaw currentYear =
        .error "Publication year must be a number.") ∧
    (pyIsdigit (pyStrip yearRaw) = true →
      (validate_book_payload titleRaw yearRaw authorIdRaw currentYear =
          .error "Publication year seems invalid." ↔
        (digitStrToInt (pyStrip yearRaw) < 0 ∨
          digitStrToInt (pyStrip yearRaw) > currentYear + 1))) ∧
    (pyIsdigit (pyStrip yearRaw) = true →
      digitStrToInt (pyStrip yearRaw) ≤ currentYear + 1 →
      pyIsdigit (pyStrip authorIdRaw) = true →
      validate_book_payload titleRaw yearRaw authorIdRaw currentYear =
        .ok (pyStrip titleRaw, digitStrToInt (pyStrip yearRaw),
          digitStrToInt (pyStrip authorIdRaw))) := by
  unfold validate_book_payload
  refine ⟨fun h => ?_, fun h => ?_, fun h h2 h3 => ?_⟩
  · simp [htitle, h]
  · by_cases hr : digitStrToInt (pyStrip yearRaw) < 0 ∨
        digitStrToInt (pyStrip yearRaw) > currentYear + 1
    · simp [htitle, h, hr]
    · by_cases ha : pyIsdigit (pyStrip authorIdRaw) = true
      · simp [htitle, h, hr, ha]
      · simp [htitle, h, hr, ha]
  · have hr : ¬ (digitStrToInt (pyStrip yearRaw) < 0 ∨
        digitStrToInt (pyStrip yearRaw) > currentYear + 1) := by
      push_neg
      exact ⟨digitStrToInt_nonneg _, h2⟩
    simp [htitle, h, hr, h3]

/-- C6 witness: at `currentYear = 2025`, the year 2026 (= current + 1) is
accepted, 2027 (= current + 2) is rejected as seeming invalid, and "abcd" is
rejected as not a number. -/
theorem c6_witness :
    validate_book_payload "T" "abcd" "3" 2025 = .error "Publication year must be a number." ∧
    validate_book_payload "T" "2027" "3" 2025 = .error "Publication year seems invalid." ∧
    validate_book_payload "T" "2026" "3" 2025 = .ok ("T", 2026, 3) := by
  refine ⟨?_, ?_, ?_⟩
  · exact (c6_publication_year_validation "T" "abcd" "3" 2025 (by decide)).1 (by decide)
  · exact ((c6_publication_year_validation "T" "2027" "3" 2025 (by decide)).2.1
      (by decide)).mpr (by decide)
  · exact (c6_publication_year_validation "T" "2026" "3" 2025 (by decide)).2.2
      (by decide) (by decide) (by decide)

/-- C10: every successfully validated book payload has a non-negative
publication year and author id; the "Publication year seems invalid."
rejection only ever fires because the value exceeds `currentYear + 1`, never
because it is negative; and a trimmed year string containing a sign character
(or any other non-digit) is rejected earlier with "Publication year must be a
number.". -/
theorem c10_year_nonneg (titleRaw yearRaw authorIdRaw : String) (currentYear : Int) :
    (∀ t py aid,
      validate_book_payload titleRaw yearRaw authorIdRaw currentYear = .ok (t, py, aid) →
      0 ≤ py ∧ 0 ≤ aid) ∧
    (validate_book_payload titleRaw yearRaw authorIdRaw currentYear =
        .error "Publication year seems invalid." →
      ¬ digitStrToInt (pyStrip yearRaw) < 0 ∧
        digitStrToInt (pyStrip yearRaw) > currentYear + 1) ∧
    (pyStrip titleRaw ≠ "" → (∃ c ∈ (pyStrip yearRaw).data, c = '-' ∨ c = '+') →
      validate_book_payload titleRaw yearRaw authorIdRaw currentYear =
        .error "Publication year must be a number.") := by
  refine ⟨fun t py aid h => ?_, fun h => ?_, fun ht hsign => ?_⟩
  · simp only [validate_book_payload] at h
    split at h
    · exact absurd h (by simp)
    · split at h
      · exact absurd h (by simp)
      · split at h
        · exact absurd h (by simp)
        · split at h
          · exact absurd h (by simp)
          · simp only [Except.ok.injEq, Prod.mk.injEq] at h
            obtain ⟨h1, h2, h3⟩ := h
            subst h2
            subst h3
            exact ⟨digitStrToInt_nonneg _, digitStrToInt_nonneg _⟩
  · simp only [validate_book_payload] at h
    split at h
    · exact absurd h (by simp)
    · split at h
      · exact absurd h (by simp)
      · split at h
        · rename_i hrange
          exact ⟨not_lt.mpr (digitStrToInt_nonneg _),
            hrange.resolve_left (not_lt.mpr (digitStrToInt_nonneg _))⟩
        · split at h
          · exact absurd h (by simp)
          · exact absurd h (by simp)
  · obtain ⟨c, hc, hsgn⟩ := hsign
    have hnd : pyIsdigit (pyStrip yearRaw) = false := by
      by_contra hb
      rw [Bool.not_eq_false] at hb
      unfold pyIsdigit at hb
      rw [Bool.and_eq_true] at hb
      have hcd := List.all_eq_true.mp hb.2 c hc
      rcases hsgn with h | h <;> subst h <;> exact absurd hcd (by decide)
    unfold validate_book_payload
    simp [ht, hnd]

/-- C10 witness: a concrete accepted payload has non-negative year and id,
and the signed year string "-5" is rejected as not a number. -/
theorem c10_witness :
    ((0:Int) ≤ 2026 ∧ (0:Int) ≤ 3) ∧
    validate_book_payload "T" "-5" "3" 2025 = .error "Publication year must be a number." := by
  constructor
  · exact (c10_year_nonneg "T" "2026" "3" 2025).1 "T" 2026 3 (by decide)
  · exact (c10_year_nonneg "T" "-5" "3" 2025).2.2 (by decide) ⟨'-', by decide, Or.inl rfl⟩

/-! ### C7 -/

/-- C7: given a payload that validates, add-author rejects the candidate as a
duplicate exactly when some existing author's name matches case-insensitively
and the birth dates are equal (`Option` equality covers both dates being
absent, matching the code's redundant second disjunct); otherwise the author
is persisted. -/
theorem c7_duplicate_author (db : DB) (nameRaw birthRaw deathRaw : String)
    (name : String) (birth death : Option Date)
    (hval : validate_author_payload nameRaw birthRaw deathRaw = .ok (name, birth, death)) :
    (add_author db nameRaw birthRaw deathRaw false =
        (db, .errorFlash "Author already exists.") ↔
      ∃ a ∈ db.authors, pyLower a.name = pyLower name ∧ a.birth_date = birth) ∧
    ((¬ ∃ a ∈ db.authors, pyLower a.name = pyLower name ∧ a.birth_date = birth) →
      add_author db nameRaw birthRaw deathRaw false =
        ({ db with authors := db.authors ++
            [{ id := freshAuthorId db, name := name, birth_date := birth,
               date_of_death := death }] },
         .success "Author added successfully.")) := by
  have hcond : (((db.authors.filter (fun a => pyLower a.name = pyLower name)).any
      (fun a => a.birth_date = birth ∨ (a.birth_date = none ∧ birth = none))) = true) ↔
      ∃ a ∈ db.authors, pyLower a.name = pyLower name ∧ a.birth_date = birth := by
    simp only [List.any_eq_true, List.mem_filter, decide_eq_true_eq]
    constructor
    · rintro ⟨a, ⟨ha, hn⟩, hd | ⟨h1, h2⟩⟩
      · exact ⟨a, ha, hn, hd⟩
      · exact ⟨a, ha, hn, h2 ▸ h1⟩
    · rintro ⟨a, ha, hn, hd⟩
      exact ⟨a, ⟨ha, hn⟩, Or.inl hd⟩
  simp only [add_author, hval]
  constructor
  · by_cases hdup : (((db.authors.filter (fun a => pyLower a.name = pyLower name)).any
        (fun a => a.birth_date = birth ∨ (a.birth_date = none ∧ birth = none))) = true)
    · simp only [if_pos hdup]
      exact iff_of_true trivial (hcond.mp hdup)
    · simp only [if_neg hdup, Bool.false_eq_true, if_false]
      refine iff_of_false (fun hpair => ?_) (fun hex => hdup (hcond.mpr hex))
      exact Resp.noConfusion (congrArg Prod.snd hpair)
  · intro hnex
    have hdup := fun h => hnex (hcond.mp h)
    simp only [if_neg hdup, Bool.false_eq_true, if_false]

/-- C7 witness: on a catalog holding "Tolkien" with no birth date, adding
"tolkien" with no birth date is rejected as a duplicate, while adding
"tolkien" with birth date 1892-01-03 succeeds. -/
theorem c7_witness :
    add_author exDB1 "tolkien" "" "" false = (exDB1, .errorFlash "Author already exists.") ∧
    add_author exDB1 "tolkien" "1892-01-03" "" false =
      ({ exDB1 with authors := exDB1.authors ++
          [{ id := freshAuthorId exDB1, name := "tolkien",
             birth_date := some ⟨1892, 1, 3⟩, date_of_death := none }] },
       .success "Author added successfully.") := by
  constructor
  · exact (c7_duplicate_author exDB1 "tolkien" "" "" "tolkien" none none (by decide)).1.mpr
      ⟨tolkien, by decide, by decide, by decide⟩
  · exact (c7_duplicate_author exDB1 "tolkien" "1892-01-03" "" "tolkien"
      (some ⟨1892, 1, 3⟩) none (by decide)).2 (by decide)

/-! ### C8 -/

/-- C8: for a validated payload whose selected author exists, add-book fails
with "A book with this title already exists." (state untouched) whenever some
existing book's title matches case-insensitively; update-book skips the
duplicate-title check exactly when the new title equals the current one
case-insensitively, and otherwise fails with the same message precisely when
a case-insensitive title match exists in the catalog. -/
theorem c8_duplicate_title (db : DB) (titleRaw yearRaw authorIdRaw isbnRaw : String)
    (currentYear : Int) (book_id : Int) (title : String) (py aid : Int)
    (a : Author) (book : Book) :
    (validate_book_payload titleRaw yearRaw authorIdRaw currentYear = .ok (title, py, aid) →
      db.authors.find? (fun x => x.id = aid) = some a →
      (∃ b ∈ db.books, pyLower b.title = pyLower title) →
      add_book db titleRaw yearRaw authorIdRaw isbnRaw currentYear false =
        (db, .errorFlash "A book with this title already exists.")) ∧
    (db.books.find? (fun b => b.id = book_id) = some book →
      validate_book_payload titleRaw yearRaw authorIdRaw currentYear = .ok (title, py, aid) →
      db.authors.find? (fun x => x.id = aid) = some a →
      ((pyLower title = pyLower book.title →
        (update db book_id titleRaw yearRaw authorIdRaw isbnRaw currentYear false).2 =
          .success "Book updated successfully.") ∧
       (¬ pyLower title = pyLower book.title →
        ((update db book_id titleRaw yearRaw authorIdRaw isbnRaw currentYear false).2 =
            .errorFlash "A book with this title already exists." ↔
          ∃ b ∈ db.books, pyLower b.title = pyLower title)))) := by
  constructor
  · intro hval hfind hex
    have hdup : (db.books.any (fun b => pyLower b.title = pyLower title)) = true := by
      simp only [List.any_eq_true, decide_eq_true_eq]
      exact hex
    simp only [add_book, hval, hfind, if_pos hdup]
  · intro hfb hval hfind
    constructor
    · intro heq
      have hcond : ¬ (¬ pyLower title = pyLower book.title ∧
          (db.books.any (fun b => pyLower b.title = pyLower title)) = true) :=
        fun hc => hc.1 heq
      simp only [update, hfb, hval, hfind, if_neg hcond, Bool.false_eq_true, if_false]
    · intro hne
      by_cases hex : ∃ b ∈ db.books, pyLower b.title = pyLower title
      · have hdup : (db.books.any (fun b => pyLower b.title = pyLower title)) = true := by
          simp only [List.any_eq_true, decide_eq_true_eq]
          exact hex
        simp only [update, hfb, hval, hfind, if_pos (And.intro hne hdup)]
        exact iff_of_true trivial hex
      · have hcond : ¬ (¬ pyLower title = pyLower book.title ∧
            (db.books.any (fun b => pyLower b.title = pyLower title)) = true) := by
          intro hc
          refine hex ?_
          have := hc.2
          simpa only [List.any_eq_true, decide_eq_true_eq] using this
        simp only [update, hfb, hval, hfind, if_neg hcond, Bool.false_eq_true, if_false]
        exact iff_of_false (fun h => Resp.noConfusion h) hex

/-- C8 witness: with "Dune" in the catalog, adding "dune" fails with the
duplicate-title message and leaves the state unchanged, while updating book 1
to the title "DUNE" (unchanged case-insensitively) succeeds even though a
case-insensitive match exists. -/
theorem c8_witness :
    add_book exDB1 "dune" "1984" "1" "" 2025 false =
      (exDB1, .errorFlash "A book with this title already exists.") ∧
    (update exDB1 1 "DUNE" "1965" "1" "" 2025 false).2 =
      .success "Book updated successfully." := by
  constructor
  · exact (c8_duplicate_title exDB1 "dune" "1984" "1" "" 2025 1 "dune" 1984 1
      tolkien dune).1 (by decide) (by decide) ⟨dune, by decide, by decide⟩
  · exact ((c8_duplicate_title exDB1 "DUNE" "1965" "1" "" 2025 1 "DUNE" 1965 1
      tolkien dune).2 (by decide) (by decide) (by decide)).1 (by decide)

/-! ### C2 -/

/-- C2: deleting an existing author that owns N ≥ 1 books removes, in one
atomic step, the author row and exactly the books whose `author_id` references
it: afterwards no book references the deleted author and the author is
absent. -/
theorem c2_delete_author_cascade (db : DB) (author_id : Int) (a : Author) (n : Nat)
    (ha : db.authors.find? (fun x => x.id = author_id) = some a)
    (hn : (db.books.filter (fun b => b.author_id = author_id)).length = n)
    (hpos : 1 ≤ n) :
    (delete_author db author_id).2 =
      .success ("Deleted author '" ++ a.name ++ "' and all their books.") ∧
    (∀ b ∈ (delete_author db author_id).1.books, ¬ b.author_id = author_id) ∧
    (∀ x ∈ (delete_author db author_id).1.authors, ¬ x.id = author_id) ∧
    (delete_author db author_id).1.books =
      db.books.filter (fun b => ¬ (b.author_id = author_id)) := by
  simp only [delete_author, ha]
  refine ⟨?_, ?_, ?_, ?_⟩
  · trivial
  · intro b hb
    simpa using List.of_mem_filter hb
  · intro x hx
    simpa using List.of_mem_filter hx
  · trivial

/-- C2 witness: deleting author 1 of `exDB3` (who owns the two books 1 and 2)
removes the author and both books, leaving no book referencing author 1. -/
theorem c2_witness :
    (delete_author exDB3 1).2 = .success "Deleted author 'Tolkien' and all their books." ∧
    (∀ b ∈ (delete_author exDB3 1).1.books, ¬ b.author_id = 1) ∧
    (∀ x ∈ (delete_author exDB3 1).1.authors, ¬ x.id = 1) ∧
    (delete_author exDB3 1).1.books = exDB3.books.filter (fun b => ¬ (b.author_id = 1)) :=
  c2_delete_author_cascade exDB3 1 tolkien 2 (by decide) (by decide) (by decide)

/-! ### C3 -/

/-- C3: after a successful delete-book on a book whose owning author owned
exactly that book, the author is deleted too (orphan cleanup); if the author
owned at least one other book, the author table is untouched and exactly the
deleted book disappears. -/
theorem c3_orphan_cleanup (db : DB) (book : Book) (a : Author)
    (hb : db.books.find? (fun b => b.id = book.id) = some book)
    (ha : db.authors.find? (fun x => x.id = book.author_id) = some a) :
    ((∀ c ∈ db.books, c.author_id = book.author_id → c.id = book.id) →
      (delete_book db book.id none).2 = .success "Book deleted successfully." ∧
      (∀ x ∈ (delete_book db book.id none).1.authors, ¬ x.id = book.author_id) ∧
      (delete_book db book.id none).1.books =
        db.books.filter (fun c => ¬ (c.id = book.id))) ∧
    ((∃ c ∈ db.books, c.author_id = book.author_id ∧ ¬ c.id = book.id) →
      (delete_book db book.id none).2 = .success "Book deleted successfully." ∧
      (delete_book db book.id none).1.authors = db.authors ∧
      (delete_book db book.id none).1.books =
        db.books.filter (fun c => ¬ (c.id = book.id))) := by
  have haid : a.id = book.author_id := by simpa using List.find?_some ha
  have hfa : ¬ ((none : Option Nat) = some 1) := by simp
  constructor
  · intro huniq
    have hempty : ((db.books.filter (fun b => ¬ (b.id = book.id))).filter
        (fun b => b.author_id = a.id)) = [] := by
      rw [List.filter_eq_nil_iff]
      intro c hc
      have hc1 := List.of_mem_filter hc
      have hc2 := List.mem_of_mem_filter hc
      simp only [decide_eq_true_eq] at hc1 ⊢
      intro hca
      exact hc1 (huniq c hc2 (haid ▸ hca))
    simp only [delete_book, hb, if_neg hfa, ha, hempty, List.isEmpty_nil, if_pos]
    refine ⟨?_, ?_, ?_⟩
    · simp
    · intro x hx
      have := List.of_mem_filter hx
      simp only [decide_eq_true_eq] at this
      simpa [haid] using this
    · simp
  · rintro ⟨c, hc, hca, hcid⟩
    have hmem : c ∈ (db.books.filter (fun b => ¬ (b.id = book.id))).filter
        (fun b => b.author_id = a.id) := by
      refine List.mem_filter.mpr ⟨List.mem_filter.mpr ⟨hc, ?_⟩, ?_⟩
      · simpa using hcid
      · simpa using haid ▸ hca
    have hne : ¬ (((db.books.filter (fun b => ¬ (b.id = book.id))).filter
        (fun b => b.author_id = a.id)).isEmpty = true) := by
      rw [List.isEmpty_iff]
      exact List.ne_nil_of_mem hmem
    simp only [delete_book, hb, if_neg hfa, ha, if_neg hne]
    exact ⟨trivial, trivial, trivial⟩

/-- C3 witness: in `exDB3`, deleting book 3 (the only book of author 2)
removes author 2 as well, while deleting book 1 (author 1 also owns book 2)
keeps the author table unchanged. -/
theorem c3_witness :
    ((delete_book exDB3 3 none).2 = .success "Book deleted successfully." ∧
      (∀ x ∈ (delete_book exDB3 3 none).1.authors, ¬ x.id = 2) ∧
      (delete_book exDB3 3 none).1.books = exDB3.books.filter (fun c => ¬ (c.id = 3))) ∧
    ((delete_book exDB3 1 none).2 = .success "Book deleted successfully." ∧
      (delete_book exDB3 1 none).1.authors = exDB3.authors ∧
      (delete_book exDB3 1 none).1.books = exDB3.books.filter (fun c => ¬ (c.id = 1))) := by
  constructor
  · exact (c3_orphan_cleanup exDB3 childrenOfDune herbert (by decide) (by decide)).1
      (by decide)
  · exact (c3_orphan_cleanup exDB3 dune tolkien (by decide) (by decide)).2
      ⟨duneMessiah, by decide, by decide, by decide⟩

/-! ### C4 -/

/-- C4: the unified schema's rating is absent until set; the rate-book
operation leaves the stored books untouched on any parse failure or
out-of-range value, stores a valid rating 1..10 on the addressed book, and
preserves the invariant that every stored rating lies in 1..10. -/
theorem c4_rating (books : List RBook) (book_id : Int) (ratingRaw : String)
    (r : Int) (b : RBook) :
    ((∀ v, pyInt ratingRaw = some v → v < 1 ∨ v > 10) →
      (rate_book books book_id ratingRaw).1 = books) ∧
    (pyInt ratingRaw = some r → 1 ≤ r → r ≤ 10 →
      books.find? (fun x => x.id = book_id) = some b →
      (rate_book books book_id ratingRaw).1 =
        books.map (fun x => if x.id = book_id then { x with rating := some r } else x) ∧
      (rate_book books book_id ratingRaw).2 =
        .success ("Saved rating " ++ toString r ++ " for '" ++ b.title ++ "'.")) ∧
    ((∀ x ∈ books, ∀ v, x.rating = some v → 1 ≤ v ∧ v ≤ 10) →
      ∀ x ∈ (rate_book books book_id ratingRaw).1, ∀ v, x.rating = some v →
        1 ≤ v ∧ v ≤ 10) ∧
    (newRBook book_id "t").rating = none := by
  refine ⟨?_, ?_, ?_, rfl⟩
  · intro hout
    unfold rate_book
    split
    · rfl
    · split
      · rfl
      · rename_i v hv
        rw [if_pos (hout v hv)]
  · intro hp h1 h10 hfind
    have hin : ¬ (r < 1 ∨ r > 10) := by
      push_neg
      exact ⟨h1, h10⟩
    simp only [rate_book, hfind, hp, if_neg hin]
    exact ⟨trivial, trivial⟩
  · intro hinv
    unfold rate_book
    split
    · exact hinv
    · split
      · exact hinv
      · rename_i v hv
        split
        · exact hinv
        · rename_i hrange
          intro x hx w hw
          obtain ⟨y, hy, hxy⟩ := List.mem_map.mp hx
          by_cases hid : y.id = book_id
          · rw [if_pos hid] at hxy
            subst hxy
            simp only [Option.some.injEq] at hw
            subst hw
            push_neg at hrange
            exact hrange
          · rw [if_neg hid] at hxy
            subst hxy
            exact hinv y hy w hw

/-- A one-book fixture for the rating endpoint. -/
def exRBooks : List RBook := [{ id := 1, title := "Dune", rating := none }]

/-- C4 witness: rating "11" leaves the stored books unchanged; rating "7"
stores 7 on the addressed book. -/
theorem c4_witness :
    (rate_book exRBooks 1 "11").1 = exRBooks ∧
    (rate_book exRBooks 1 "7").1 =
      exRBooks.map (fun x => if x.id = 1 then { x with rating := some 7 } else x) := by
  constructor
  · refine (c4_rating exRBooks 1 "11" 7 ⟨1, "Dune", none⟩).1 (fun v hv => ?_)
    have h11 : pyInt "11" = some 11 := by decide
    rw [h11, Option.some.injEq] at hv
    exact Or.inr (by omega)
  · exact ((c4_rating exRBooks 1 "7" 7 ⟨1, "Dune", none⟩).2.1
      (by decide) (by decide) (by decide) (by decide)).1

/-! ### C5: characterizing `strptime "%Y-%m-%d"` -/

/-- A character is a decimal digit iff its code point lies in 48..57. -/
theorem char_isDigit_iff (c : Char) : c.isDigit = true ↔ 48 ≤ c.toNat ∧ c.toNat ≤ 57 := by
  unfold Char.isDigit
  simp only [Bool.and_eq_true, decide_eq_true_eq, ge_iff_le, UInt32.le_def, Fin.le_def,
    UInt32.val_val_eq_toNat, BitVec.le_def]
  norm_num
  rfl

/-- Characters are equal iff their code points are. -/
theorem char_eq_iff_toNat (c d : Char) : c = d ↔ c.toNat = d.toNat :=
  ⟨fun h => h ▸ rfl, fun h => Char.ext (UInt32.ext h)⟩

/-- A digit character's value is at most 9. -/
theorem dval_le_9 {c : Char} (h : c.isDigit = true) : dval c ≤ 9 := by
  rw [char_isDigit_iff] at h
  unfold dval
  omega

/-- The value of a one-digit string. -/
theorem digitsToNat_single (a : Char) : digitsToNat [a] = dval a := by
  simp [digitsToNat]

/-- The value of a two-digit string. -/
theorem digitsToNat_pair (a b : Char) : digitsToNat [a, b] = 10 * dval a + dval b := by
  simp [digitsToNat]
  ring

/-- Every month length is at most 31. -/
theorem daysInMonth_le_31 (y m : Nat) : daysInMonth y m ≤ 31 := by
  unfold daysInMonth
  split_ifs <;> omega

/-- `takeYear` succeeds exactly on four leading digits. -/
theorem takeYear_eq_some {l : List Char} {y : Nat} {r : List Char}
    (h : takeYear l = some (y, r)) :
    ∃ a b c e, l = a :: b :: c :: e :: r ∧ a.isDigit = true ∧ b.isDigit = true ∧
      c.isDigit = true ∧ e.isDigit = true ∧ y = digitsToNat [a, b, c, e] := by
  rcases l with _ | ⟨a, _ | ⟨b, _ | ⟨c, _ | ⟨e, r'⟩⟩⟩⟩
  · exact absurd h (by simp [takeYear])
  · exact absurd h (by simp [takeYear])
  · exact absurd h (by simp [takeYear])
  · exact absurd h (by simp [takeYear])
  · simp only [takeYear] at h
    split at h
    · rename_i hcond
      obtain ⟨ha, hb, hc, he⟩ := hcond
      simp only [Option.some.injEq, Prod.mk.injEq] at h
      exact ⟨a, b, c, e, by rw [h.2], ha, hb, hc, he, h.1.symm⟩
    · exact absurd h (by simp)

/-- The first element of a list, when `head?` returns one, is a member. -/
theorem head?_mem {α : Type} {l : List α} {a : α} (h : l.head? = some a) : a ∈ l := by
  cases l <;> simp_all

/-- Membership in a conditional singleton pins down the element. -/
theorem mem_ite_singleton {α : Type} {x e : α} {P : Prop} [Decidable P]
    (h : x ∈ (if P then [e] else [])) : x = e := by
  split at h
  · simpa using h
  · simp at h

/-- On an input of three or more characters every day candidate leaves a
non-empty remainder. -/
theorem dayCands_rest_ne_nil (u v w : Char) (r : List Char) (x : Nat × List Char)
    (hx : x ∈ dayCands (u :: v :: w :: r)) : x.2 ≠ [] := by
  simp only [dayCands, List.mem_append] at hx
  rcases hx with ((h | h) | h) | h <;> rw [mem_ite_singleton h] <;> simp

/-- The day phase of the match succeeds consuming the whole remaining input
with value `D` exactly when that input is one or two digits forming a value
in 1..31 (and `D` is that value). -/
theorem dayCands_spec (l : List Char) (D : Nat) :
    (dayCands l).head? = some (D, ([] : List Char)) ↔
      (l.all Char.isDigit = true ∧ 1 ≤ l.length ∧ l.length ≤ 2 ∧
        D = digitsToNat l ∧ 1 ≤ D ∧ D ≤ 31) := by
  rcases l with _ | ⟨u, _ | ⟨v, _ | ⟨w, r⟩⟩⟩
  · simp [dayCands]
  · -- one character
    by_cases hu : u.isDigit = true ∧ 1 ≤ dval u
    · have h9 := dval_le_9 hu.1
      simp [dayCands, hu, hu.1, hu.2, digitsToNat_single]
      omega
    · constructor
      · intro h
        simp [dayCands, hu] at h
      · rintro ⟨hall, -, -, hD, h1, -⟩
        simp only [List.all_cons, List.all_nil, Bool.and_eq_true] at hall
        rw [hD, digitsToNat_single] at h1
        exact absurd ⟨hall.1, h1⟩ hu
  · -- two characters
    have hpair := digitsToNat_pair u v
    constructor
    · intro h
      by_cases hu : u.isDigit = true
      · by_cases hv : v.isDigit = true
        · have h9u := dval_le_9 hu
          have h9v := dval_le_9 hv
          have hcase : dval u = 0 ∨ (1 ≤ dval u ∧ dval u ≤ 2) ∨ dval u = 3 ∨
              4 ≤ dval u := by omega
          rcases hcase with h0 | h12 | h3 | h4
          · have hne3 : ¬ dval u = 3 := by omega
            have hnge : ¬ 1 ≤ dval u := by omega
            by_cases hvge : 1 ≤ dval v
            · simp [dayCands, hu, hv, hne3, hnge, h0, hvge] at h
              exact ⟨by simp [hu, hv], by simp, by simp, by omega, by omega, by omega⟩
            · simp [dayCands, hu, hv, hne3, hnge, h0, hvge] at h
          · have hne3 : ¬ dval u = 3 := by omega
            simp [dayCands, hu, hv, hne3, h12.1, h12.2] at h
            exact ⟨by simp [hu, hv], by simp, by simp, by omega, by omega, by omega⟩
          · by_cases hv1 : dval v ≤ 1
            · simp [dayCands, hu, hv, h3, hv1] at h
              exact ⟨by simp [hu, hv], by simp, by simp, by omega, by omega, by omega⟩
            · have hne0 : ¬ dval u = 0 := by omega
              have hnle : ¬ dval u ≤ 2 := by omega
              have hge : 1 ≤ dval u := by omega
              simp [dayCands, hu, hv, h3, hv1, hne0, hnle, hge] at h
          · have hne3 : ¬ dval u = 3 := by omega
            have hne0 : ¬ dval u = 0 := by omega
            have hnle : ¬ dval u ≤ 2 := by omega
            have hge : 1 ≤ dval u := by omega
            simp [dayCands, hu, hv, hne3, hne0, hnle, hge] at h
        · by_cases hge : 1 ≤ dval u
          · simp [dayCands, hu, hv, hge] at h
          · simp [dayCands, hu, hv, hge] at h
      · simp [dayCands, hu] at h
    · rintro ⟨hall, -, -, hD, h1, h31⟩
      simp only [List.all_cons, List.all_nil, Bool.and_eq_true] at hall
      obtain ⟨hu, hv, -⟩ := hall
      have h9u := dval_le_9 hu
      have h9v := dval_le_9 hv
      rw [digitsToNat_pair] at hD
      have hcase : dval u = 0 ∨ dval u = 1 ∨ dval u = 2 ∨ dval u = 3 := by omega
      rcases hcase with h0 | h1' | h2 | h3
      · have hge : 1 ≤ dval v := by omega
        simp [dayCands, hu, hv, h0, hge]
        omega
      · simp [dayCands, hu, hv, h1']
        omega
      · simp [dayCands, hu, hv, h2]
        omega
      · have hle : dval v ≤ 1 := by omega
        simp [dayCands, hu, hv, h3, hle]
        omega
  · -- three or more characters: no candidate can consume everything
    constructor
    · intro h
      exact absurd rfl (dayCands_rest_ne_nil u v w r _ (head?_mem h))
    · rintro ⟨-, -, hlen, -⟩
      simp only [List.length_cons] at hlen
      omega

/-- Membership in a conditional singleton also yields the condition. -/
theorem mem_ite_singleton' {α : Type} {x e : α} {P : Prop} [Decidable P]
    (h : x ∈ (if P then [e] else [])) : P ∧ x = e := by
  split at h
  · rename_i hp
    exact ⟨hp, by simpa using h⟩
  · simp at h

/-- The dash is not a digit. -/
theorem dash_not_digit : ('-' : Char).isDigit = false := by decide

/-- What the amended claim accepts: four digit characters, a dash, one or two
digit characters forming a month in 1..12, a dash, one or two digit
characters forming a day that is valid for that month and year, the year at
least 1; `d` is the resulting date. -/
def RelaxedDate (l : List Char) (d : Date) : Prop :=
  ∃ y1 y2 y3 y4 mcs dcs,
    l = y1 :: y2 :: y3 :: y4 :: '-' :: (mcs ++ '-' :: dcs) ∧
    [y1, y2, y3, y4].all Char.isDigit = true ∧
    mcs.all Char.isDigit = true ∧ dcs.all Char.isDigit = true ∧
    1 ≤ mcs.length ∧ mcs.length ≤ 2 ∧ 1 ≤ dcs.length ∧ dcs.length ≤ 2 ∧
    d.year = digitsToNat [y1, y2, y3, y4] ∧ d.month = digitsToNat mcs ∧
    d.day = digitsToNat dcs ∧ 1 ≤ d.year ∧ 1 ≤ d.month ∧ d.month ≤ 12 ∧
    1 ≤ d.day ∧ d.day ≤ daysInMonth d.year d.month

/-- Soundness half: a successful `strptimeYMD` run exhibits the relaxed
decomposition. -/
theorem relaxed_of_strptime {l : List Char} {d : Date}
    (h : strptimeYMD l = some d) : RelaxedDate l d := by
  unfold strptimeYMD at h
  rcases hreg : regexYMD l with _ | ⟨y, m, dd, rest⟩
  · rw [hreg] at h
    exact absurd h (by simp)
  · simp only [hreg] at h
    by_cases hrest : rest.isEmpty = true
    · rw [if_pos hrest] at h
      by_cases hbound : 1 ≤ y ∧ 1 ≤ dd ∧ dd ≤ daysInMonth y m
      · rw [if_pos hbound] at h
        simp only [Option.some.injEq] at h
        have hrestnil : rest = [] := List.isEmpty_iff.mp hrest
        subst hrestnil
        have hdy : d.year = y := by rw [← h]
        have hdm : d.month = m := by rw [← h]
        have hdd : d.day = dd := by rw [← h]
        clear h
        unfold regexYMD at hreg
        split at hreg
        · exact absurd hreg (by simp)
        · rename_i p y' r1 heqY
          split at hreg
          · rename_i r2
            obtain ⟨mc, hmem, hf⟩ := List.exists_of_findSome?_eq_some hreg
            split at hf
            · rename_i r4 heq4
              split at hf
              · rename_i dc heqd
                simp only [Option.some.injEq, Prod.mk.injEq] at hf
                obtain ⟨hy', hm', hd', hr'⟩ := hf
                have hdc : dc = (dd, []) := by
                  cases dc
                  simp_all
                rw [hdc] at heqd
                obtain ⟨halld, hdl1, hdl2, hdval, hdd1, hdd31⟩ :=
                  (dayCands_spec r4 dd).mp heqd
                obtain ⟨a, b, c, e, hl, hda, hdb, hdc', hde, hyval⟩ :=
                  takeYear_eq_some heqY
                rcases r2 with _ | ⟨c1, _ | ⟨c2, rr⟩⟩
                · simp [monthCands] at hmem
                · simp only [monthCands, List.mem_append, List.not_mem_nil,
                    false_or] at hmem
                  obtain ⟨-, hmc⟩ := mem_ite_singleton' hmem
                  rw [hmc] at heq4
                  exact absurd heq4 (by simp)
                · simp only [monthCands, List.mem_append] at hmem
                  rcases hmem with (h1 | h2) | h3
                  · obtain ⟨⟨hg1, hv1, hg2, hv2⟩, hmc⟩ := mem_ite_singleton' h1
                    rw [hmc] at heq4 hm'
                    simp only at heq4 hm'
                    subst heq4
                    refine ⟨a, b, c, e, [c1, c2], r4, by rw [hl]; simp, ?_, ?_,
                      halld, by simp, by simp, hdl1, hdl2, ?_, ?_, ?_, ?_, ?_, ?_, ?_, ?_⟩
                    · simp [hda, hdb, hdc', hde]
                    · simp [hg1, hg2]
                    · rw [hdy, ← hy', hyval]
                    · rw [hdm, ← hm', digitsToNat_pair]
                      omega
                    · rw [hdd, hdval]
                    · omega
                    · omega
                    · rw [hdm, ← hm']
                      omega
                    · omega
                    · rw [hdd, hdy, hdm]
                      exact hbound.2.2
                  · obtain ⟨⟨hg1, hv1, hg2, hv2⟩, hmc⟩ := mem_ite_singleton' h2
                    rw [hmc] at heq4 hm'
                    simp only at heq4 hm'
                    subst heq4
                    refine ⟨a, b, c, e, [c1, c2], r4, by rw [hl]; simp, ?_, ?_,
                      halld, by simp, by simp, hdl1, hdl2, ?_, ?_, ?_, ?_, ?_, ?_, ?_, ?_⟩
                    · simp [hda, hdb, hdc', hde]
                    · simp [hg1, hg2]
                    · rw [hdy, ← hy', hyval]
                    · rw [hdm, ← hm', digitsToNat_pair]
                      omega
                    · rw [hdd, hdval]
                    · omega
                    · rw [hdm, ← hm']
                      omega
                    · have h9 := dval_le_9 hg2
                      rw [hdm, ← hm']
                      omega
                    · omega
                    · rw [hdd, hdy, hdm]
                      exact hbound.2.2
                  · obtain ⟨⟨hg1, hv1⟩, hmc⟩ := mem_ite_singleton' h3
                    rw [hmc] at heq4 hm'
                    simp only [List.cons.injEq] at heq4
                    obtain ⟨hc2dash, hrr⟩ := heq4
                    subst hc2dash
                    subst hrr
                    refine ⟨a, b, c, e, [c1], rr, by rw [hl]; simp, ?_, ?_,
                      halld, by simp, by simp, hdl1, hdl2, ?_, ?_, ?_, ?_, ?_, ?_, ?_, ?_⟩
                    · simp [hda, hdb, hdc', hde]
                    · simp [hg1]
                    · rw [hdy, ← hy', hyval]
                    · rw [hdm, ← hm', digitsToNat_single]
                    · rw [hdd, hdval]
                    · omega
                    · rw [hdm, ← hm']
                      omega
                    · have h9 := dval_le_9 hg1
                      rw [hdm, ← hm']
                      omega
                    · omega
                    · rw [hdd, hdy, hdm]
                      exact hbound.2.2
              · exact absurd hf (by simp)
            · exact absurd hf (by simp)
          · exact absurd hreg (by simp)
      · rw [if_neg hbound] at h
        exact absurd h (by simp)
    · rw [if_neg hrest] at h
      exact absurd h (by simp)

/-- Completeness half: every relaxed decomposition is accepted by the
matcher, producing exactly the decomposed date. -/
theorem strptime_of_relaxed {l : List Char} {d : Date}
    (h : RelaxedDate l d) : strptimeYMD l = some d := by
  obtain ⟨y1, y2, y3, y4, mcs, dcs, hl, hally, hallm, halld, hml1, hml2, hdl1, hdl2,
    hyear, hmonth, hday, hyge, hmge, hmle, hdge, hdle⟩ := h
  subst hl
  simp only [List.all_cons, List.all_nil, Bool.and_eq_true, and_true] at hally
  obtain ⟨hd1, hd2, hd3, hd4⟩ := hally
  have htake : takeYear (y1 :: y2 :: y3 :: y4 :: '-' :: (mcs ++ '-' :: dcs)) =
      some (digitsToNat [y1, y2, y3, y4], '-' :: (mcs ++ '-' :: dcs)) := by
    simp [takeYear, hd1, hd2, hd3, hd4]
  have hdayC : (dayCands dcs).head? = some (digitsToNat dcs, []) := by
    refine (dayCands_spec dcs (digitsToNat dcs)).mpr ⟨halld, hdl1, hdl2, rfl, ?_, ?_⟩
    · omega
    · have h31 := daysInMonth_le_31 d.year d.month
      omega
  rcases mcs with _ | ⟨m1, _ | ⟨m2, _ | ⟨m3, t⟩⟩⟩
  · simp at hml1
  · -- single-character month
    simp only [List.all_cons, List.all_nil, Bool.and_eq_true, and_true] at hallm
    rw [digitsToNat_single] at hmonth
    have hm1ge : 1 ≤ dval m1 := by omega
    simp only [List.cons_append, List.nil_append] at htake ⊢
    have hcands : monthCands (m1 :: '-' :: dcs) = [(dval m1, '-' :: dcs)] := by
      simp [monthCands, dash_not_digit, hallm, hm1ge]
    have hfin : 1 ≤ digitsToNat [y1, y2, y3, y4] ∧ 1 ≤ digitsToNat dcs ∧
        digitsToNat dcs ≤ daysInMonth (digitsToNat [y1, y2, y3, y4]) (dval m1) := by
      refine ⟨by omega, by omega, ?_⟩
      rw [← hyear, ← hmonth, ← hday]
      exact hdle
    have hdeq : d = ⟨digitsToNat [y1, y2, y3, y4], dval m1, digitsToNat dcs⟩ := by
      rw [← hyear, ← hmonth, ← hday]
    simp only [strptimeYMD, regexYMD, htake, hcands, List.findSome?_cons, hdayC,
      List.isEmpty_nil, if_pos hfin, hdeq]
    rw [if_pos trivial]
  · -- two-character month
    simp only [List.all_cons, List.all_nil, Bool.and_eq_true, and_true] at hallm
    obtain ⟨hm1d, hm2d⟩ := hallm
    have h9a := dval_le_9 hm1d
    have h9b := dval_le_9 hm2d
    rw [digitsToNat_pair] at hmonth
    have hcase : dval m1 = 0 ∨ dval m1 = 1 := by omega
    simp only [List.cons_append, List.nil_append] at htake ⊢
    have hfin : 1 ≤ digitsToNat [y1, y2, y3, y4] ∧ 1 ≤ digitsToNat dcs ∧
        digitsToNat dcs ≤ daysInMonth (digitsToNat [y1, y2, y3, y4])
          (10 * dval m1 + dval m2) := by
      refine ⟨by omega, by omega, ?_⟩
      rw [← hmonth, ← hyear, ← hday]
      exact hdle
    have hdeq : d = ⟨digitsToNat [y1, y2, y3, y4], 10 * dval m1 + dval m2,
        digitsToNat dcs⟩ := by
      rw [← hmonth, ← hyear, ← hday]
    rcases hcase with h0 | h1
    · have hge2 : 1 ≤ dval m2 := by omega
      have hne1 : ¬ dval m1 = 1 := by omega
      have hnge : ¬ 1 ≤ dval m1 := by omega
      have hcands : monthCands (m1 :: m2 :: '-' :: dcs) = [(dval m2, '-' :: dcs)] := by
        simp [monthCands, hm1d, hm2d, h0, hne1, hge2, hnge]
      rw [h0] at hdeq hfin
      norm_num at hdeq hfin
      simp only [strptimeYMD, regexYMD, htake, hcands, List.findSome?_cons, hdayC,
        List.isEmpty_nil, if_pos hfin, hdeq]
      rw [if_pos trivial]
    · have hv2 : dval m2 ≤ 2 := by omega
      have hne0 : ¬ dval m1 = 0 := by omega
      have hge1 : 1 ≤ dval m1 := by omega
      have hcands : monthCands (m1 :: m2 :: '-' :: dcs) =
          [(10 + dval m2, '-' :: dcs), (dval m1, m2 :: '-' :: dcs)] := by
        simp [monthCands, hm1d, hm2d, h1, hv2, hne0, hge1]
      rw [h1] at hdeq hfin
      norm_num at hdeq hfin
      simp only [strptimeYMD, regexYMD, htake, hcands, List.findSome?_cons, hdayC,
        List.isEmpty_nil, if_pos hfin, hdeq]
      rw [if_pos trivial]
  · simp only [List.length_cons] at hml2
    omega

/-- The exact 4-digit-year, 2-digit-month, 2-digit-day shape the claim
requires of every accepted input. -/
def exactYMDShape (s : String) : Bool :=
  match s.data with
  | [y1, y2, y3, y4, '-', m1, m2, '-', d1, d2] =>
    y1.isDigit && y2.isDigit && y3.isDigit && y4.isDigit &&
      m1.isDigit && m2.isDigit && d1.isDigit && d2.isDigit
  | _ => false

/-- C5 counterexample: the claim says every non-empty input that does not
match the exact YYYY-MM-DD pattern fails with the InvalidInput message, but
"2020-1-3" (single-digit month and day, so not of the exact shape) parses
successfully. -/
theorem c5_counterexample :
    pyStrip "2020-1-3" = "2020-1-3" ∧
    exactYMDShape "2020-1-3" = false ∧
    parse_date "2020-1-3" = .ok (some ⟨2020, 1, 3⟩) := by
  exact ⟨by decide, by decide, by decide⟩

/-- C5 amended: `parse_date` trims its input; an empty or absent input yields
absent with no error; every failure carries exactly the message "Invalid date
format. Use YYYY-MM-DD."; and a non-empty input succeeds exactly when it
matches the relaxed pattern actually implemented by `strptime("%Y-%m-%d")`:
a 4-digit year (at least 0001), a dash, a one-or-two-digit month in 1..12, a
dash, and a one-or-two-digit day valid for that month and year — so
single-digit months and days are accepted, not rejected. -/
theorem c5_parse_date_amended (s : String) :
    (pyStrip s = "" → parse_date s = .ok none) ∧
    (∀ m, parse_date s = .error m → m = "Invalid date format. Use YYYY-MM-DD.") ∧
    (¬ pyStrip s = "" →
      ∀ d, (parse_date s = .ok (some d) ↔ RelaxedDate (pyStrip s).data d)) ∧
    (¬ pyStrip s = "" → (∀ d, ¬ RelaxedDate (pyStrip s).data d) →
      parse_date s = .error "Invalid date format. Use YYYY-MM-DD.") := by
  refine ⟨fun he => ?_, fun m hm => ?_, fun hne d => ?_, fun hne hnr => ?_⟩
  · simp [parse_date, he]
  · simp only [parse_date] at hm
    split at hm
    · exact absurd hm (by simp)
    · split at hm
      · exact absurd hm (by simp)
      · simpa using hm.symm
  · simp only [parse_date]
    rw [if_neg hne]
    rcases hm : strptimeYMD (pyStrip s).data with _ | dd
    · refine iff_of_false (by simp [hm]) (fun hr => ?_)
      have := strptime_of_relaxed hr
      rw [hm] at this
      exact Option.noConfusion this
    · constructor
      · intro hok
        simp only [Except.ok.injEq, Option.some.injEq] at hok
        exact hok ▸ relaxed_of_strptime hm
      · intro hr
        have := strptime_of_relaxed hr
        rw [hm] at this
        simp only [Option.some.injEq] at this
        rw [this]
  · simp only [parse_date]
    rw [if_neg hne]
    rcases hm : strptimeYMD (pyStrip s).data with _ | dd
    · rfl
    · exact absurd (relaxed_of_strptime hm) (hnr dd)

/-- C5 witness: the empty input yields absent, and "2020-1-3" satisfies the
relaxed pattern with date 2020-01-03 (obtained by applying the amended
characterization to its successful parse). -/
theorem c5_witness :
    parse_date "" = .ok none ∧
    RelaxedDate (pyStrip "2020-1-3").data ⟨2020, 1, 3⟩ := by
  constructor
  · exact (c5_parse_date_amended "").1 (by decide)
  · exact ((c5_parse_date_amended "2020-1-3").2.2.1 (by decide) ⟨2020, 1, 3⟩).mp (by decide)
